import Mathlib

/-!
Verification development for the node transport of the NATS client
(src/src/node_transport.ts).  The transport state, its operations and the
event-driven shutdown coordinator are embedded as executable Lean
definitions; machine behaviour (socket events, write callbacks) is made
explicit as parameters and effect traces.
-/

namespace NodeTransport

/-- A byte chunk as delivered by or written to the socket (a Uint8Array). -/
abbrev Chunk := List Nat

/-- A JavaScript error value as the transport sees it: either a plain error
carrying an optional low-level `code` property and a message, or a typed
NatsError produced by `NatsError.errorForCode(code, chained)` (the error
constructor of the external nats-base-client, modelled from the spec as a
typed error wrapping the chained cause). -/
inductive JsErr where
  | raw (code : Option String) (message : String)
  | natsError (code : String) (chained : JsErr)
deriving DecidableEq

/-- The `code` property read off an error value (lines 57-58). -/
def JsErr.code : JsErr → Option String
  | .raw c _ => c
  | .natsError c _ => some c

/-- The kind of the socket handle held in the `socket` slot: the raw socket
returned by `createConnection`, or the `TLSSocket` installed by `startTLS`. -/
inductive SockKind where
  | raw
  | tls
deriving DecidableEq

/-- The mutable state of a NodeTransport instance (lines 22-31):
`socket` is the current handle (none models the undefined slot), `yields`
is the pending frame queue, `signalResolved` models whether the readiness
`signal` deferred is currently resolved, `notifyState` models the
`closedNotification` deferred (none while unresolved, `some v` once resolved
with value `v`), plus the `connected` and `done` lifecycle flags.
Listener bookkeeping and the debug option are not part of this state. -/
structure TransportState where
  socket : Option SockKind
  yields : List Chunk
  signalResolved : Bool
  notifyState : Option (Option JsErr)
  connected : Bool
  done : Bool
deriving DecidableEq

/-- The freshly constructed transport (field initializers, lines 23-31). -/
def initState : TransportState :=
  { socket := none, yields := [], signalResolved := false, notifyState := none,
    connected := false, done := false }

/-- Getter `isClosed` (lines 83-85): returns the `done` flag. -/
def TransportState.isClosed (st : TransportState) : Bool := st.done

/-- Getter `isEncrypted` (lines 189-191): `this.socket instanceof TLSSocket`;
an undefined or raw socket is not a TLSSocket. -/
def TransportState.isEncrypted (st : TransportState) : Bool :=
  match st.socket with
  | some SockKind.tls => true
  | _ => false

/-- Observable side effects of transport operations, in program order:
a socket write of the given bytes, the destroy call on the socket, the
assignment `done = true`, and the call `closedNotification.resolve(v)`. -/
inductive Effect where
  | socketWrite (bytes : List Nat)
  | socketDestroy
  | setDone
  | resolveNote (v : Option JsErr)
deriving DecidableEq

/-- Resolving a deferred: only the first resolution sets the value, a later
resolve call is a no-op on the stored value. -/
def resolveDeferred (cur : Option (Option JsErr)) (v : Option JsErr) :
    Option (Option JsErr) :=
  match cur with
  | some w => some w
  | none => some v

/-- Outcome of a `send` call (lines 193-208): the returned promise resolves,
or rejects with the write-callback error, or the call itself raises because
`this.socket.write` was invoked on an undefined slot. -/
inductive SendResult where
  | resolved
  | rejected (e : JsErr)
  | threw
deriving DecidableEq

/-- The `send` method (lines 193-208).  `writeErr` is the error value the
socket write callback reports (none for a successful write).  Returns the
(unchanged) state, the promise outcome, and the effect trace.  Debug frame
tracing (console output) is not modelled. -/
def send (st : TransportState) (frame : Chunk) (writeErr : Option JsErr) :
    TransportState × SendResult × List Effect :=
  if st.isClosed then (st, SendResult.resolved, [])
  else
    match st.socket with
    | none => (st, SendResult.threw, [])
    | some _ =>
      match writeErr with
      | some e => (st, SendResult.rejected e, [Effect.socketWrite frame])
      | none => (st, SendResult.resolved, [Effect.socketWrite frame])

/-- The bytes of `new TextEncoder().encode("+OK\r\n")` (line 218):
the characters plus, O, K, carriage return, line feed. -/
def okFrame : List Nat := [43, 79, 75, 13, 10]

/-- The private shutdown coordinator `_closed` (lines 210-234).  `err` is the
cause argument, `writeErr` is the outcome the socket write callback would
report for the best-effort final write (its failure is swallowed by the
try/catch around `await this.send(...)`).  Returns the updated state and the
effect trace.  The `internal` argument of the source only feeds logging and
is not modelled; `removeAllListeners` bookkeeping is not modelled. -/
def closedImpl (st : TransportState) (err : Option JsErr)
    (writeErr : Option JsErr) : TransportState × List Effect :=
  if st.connected = false then (st, [])
  else if st.done = true then (st, [])
  else
    let sendEffs : List Effect :=
      match err, st.socket with
      | none, some _ => (send st okFrame writeErr).2.2
      | _, _ => []
    let destroyEffs : List Effect :=
      match st.socket with
      | some _ => [Effect.socketDestroy]
      | none => []
    ({ st with done := true, notifyState := resolveDeferred st.notifyState err },
     sendEffs ++ destroyEffs ++ [Effect.setDone, Effect.resolveNote err])

/-- The three entry points into the shutdown coordinator: an explicit
`close(err)` call (lines 87-89), the socket close event handler which first
clears the socket slot and then calls `_closed` with the recorded connection
error (lines 154-158), and the fire-and-forget `disconnect()` (lines 185-187). -/
inductive CloseTrigger where
  | closeCall (err : Option JsErr)
  | socketCloseEv (connError : Option JsErr)
  | disconnectCall
deriving DecidableEq

/-- The cause an invocation presents to the coordinator. -/
def triggerCause : CloseTrigger → Option JsErr
  | .closeCall e => e
  | .socketCloseEv e => e
  | .disconnectCall => none

/-- Dispatch one shutdown trigger on the state. -/
def applyTrigger (st : TransportState) (t : CloseTrigger) (w : Option JsErr) :
    TransportState × List Effect :=
  match t with
  | .closeCall e => closedImpl st e w
  | .socketCloseEv e => closedImpl { st with socket := none } e w
  | .disconnectCall => closedImpl st none w

/-- Run a sequence of shutdown triggers (each paired with the write-callback
outcome its final write would see), accumulating the effect traces. -/
def runTriggers (st : TransportState) :
    List (CloseTrigger × Option JsErr) → TransportState × List Effect
  | [] => (st, [])
  | (t, w) :: ts =>
    ((runTriggers (applyTrigger st t w).1 ts).1,
     (applyTrigger st t w).2 ++ (runTriggers (applyTrigger st t w).1 ts).2)

/-- Recognizer for the resolve effect of the closure deferred. -/
def isResolveNote : Effect → Bool
  | .resolveNote _ => true
  | _ => false

/-- Events observed while dialing (lines 65-81): the `createConnection`
success callback, an error event carrying its error, and the close event. -/
inductive DialEv where
  | connectCb
  | errorEv (e : JsErr)
  | closeEv
deriving DecidableEq

/-- Outcome of the dial deferred. -/
inductive DialOutcome where
  | pending
  | resolved
  | rejected (e : Option JsErr)
deriving DecidableEq

/-- The dial event machine (lines 65-81): `dialError` starts undefined; an
error event records it; the success callback resolves with the socket and
detaches all listeners; a close event detaches all listeners and rejects
with whatever `dialError` holds - which is still undefined when no error
event preceded the close.  `peekInfo` (lines 113-119) and `startTLS`
(lines 135-141) follow the same error and close listener pattern. -/
def dialRun : List DialEv → Option JsErr → DialOutcome
  | [], _ => .pending
  | DialEv.connectCb :: _, _ => .resolved
  | DialEv.errorEv e :: rest, _ => dialRun rest (some e)
  | DialEv.closeEv :: _, acc => .rejected acc

/-- Result of the catch handler of `connect`. -/
inductive CatchResult where
  | reject (e : Option JsErr)
  | typeErrorThrown
deriving DecidableEq

/-- The catch handler of `connect` (lines 56-62): `const { code } = err`
followed by the ECONNREFUSED remap.  In JavaScript, destructuring a property
from `undefined` raises a TypeError, so a rejection value of `undefined`
makes the handler itself throw instead of rejecting with the cause. -/
def connectCatch : Option JsErr → CatchResult
  | none => CatchResult.typeErrorThrown
  | some e =>
    if e.code = some "ECONNREFUSED" then
      CatchResult.reject (some (JsErr.natsError "CONNECTION_REFUSED" e))
    else
      CatchResult.reject (some e)

/-- Events of the steady-state frame pump: a socket data event (handler of
lines 147-150: push the chunk on the queue and resolve the readiness signal),
or one step of the drain loop of `iterate` (lines 168-176: `yields.shift()`
and yield the frame). -/
inductive PumpEv where
  | dataEv (f : Chunk)
  | take
deriving DecidableEq

/-- The data event handler installed by `setupHandlers` (lines 147-150). -/
def dataEvent (st : TransportState) (f : Chunk) : TransportState :=
  { st with yields := st.yields ++ [f], signalResolved := true }

/-- One `yields.shift()` of the drain loop of `iterate` (lines 168-169):
removes and returns the head of the pending frame queue, if any. -/
def iterateShift (st : TransportState) : TransportState × Option Chunk :=
  match st.yields with
  | [] => (st, none)
  | f :: rest => ({ st with yields := rest }, some f)

/-- Interleave data events and consumer drain steps, collecting the frames
the consumer observes (in the order `iterate` yields them). -/
def pumpRun (st : TransportState) : List PumpEv → TransportState × List Chunk
  | [] => (st, [])
  | PumpEv.dataEv f :: evs => pumpRun (dataEvent st f) evs
  | PumpEv.take :: evs =>
    match iterateShift st with
    | (st2, none) => pumpRun st2 evs
    | (st2, some f) =>
      ((pumpRun st2 evs).1, f :: (pumpRun st2 evs).2)

/-- The payloads of the data events of an event sequence, in arrival order. -/
def pushedFrames : List PumpEv → List Chunk
  | [] => []
  | PumpEv.dataEv f :: evs => f :: pushedFrames evs
  | PumpEv.take :: evs => pushedFrames evs

/-- Index, in `connectPhases`, of the first state in which the TLS upgrade
has completed and the socket slot holds the TLS session (line 50). -/
def tlsUpgradeIdx : Nat := 3

/-- The successive transport states during the body of `connect`
(lines 44-54) when the greeting mandates TLS: the state while dialing
(socket slot still untouched), after `this.socket = await this.dial(hp)`,
after `peekInfo` returned (the greeting chunks were pushed on the queue),
after `this.socket = await this.startTLS()` replaced the handle with the
TLS session, and after `connected = true` with the signal resolved. -/
def connectPhases (st : TransportState) (greet : List Chunk) :
    List TransportState :=
  let s1 := { st with socket := some SockKind.raw }
  let s2 := { s1 with yields := s1.yields ++ greet }
  let s3 := { s2 with socket := some SockKind.tls }
  let s4 := { s3 with connected := true, signalResolved := true }
  [st, s1, s2, s3, s4]

/-- Concatenation of the queued chunks: `DataBuffer.concat(...this.yields)`
(line 96), modelled from the spec (the DataBuffer helper is external to
src/): it concatenates the byte buffers in order. -/
def concatChunks : List Chunk → List Nat
  | [] => []
  | c :: cs => c ++ concatChunks cs

/-- Modelled from the spec: `extractProtocolMessage` of the external
nats-base-client (line 97) is a pure function that returns the first
complete protocol line of the accumulated bytes - the bytes strictly before
the first CRLF pair - and nothing when no complete line is present.  It does
not consume or mutate the buffer it is given. -/
def extractLine : List Nat → Option (List Nat)
  | [] => none
  | [_] => none
  | b :: c :: rest =>
    if b = 13 ∧ c = 10 then some []
    else (extractLine (c :: rest)).map (fun l => b :: l)

/-- Modelled from the spec: the greeting parse of lines 100-104 (the INFO
regular expression match followed by the JSON parse of its payload, both
external to src/): a line is a valid greeting exactly when it starts with
the literal prefix INFO followed by a space (bytes 73, 78, 70, 79, 32); the
parsed greeting is represented by the raw payload bytes after that prefix. -/
def parseINFO (line : List Nat) : Option (List Nat) :=
  match line with
  | 73 :: 78 :: 70 :: 79 :: 32 :: payload => some payload
  | _ => none

/-- Outcome of the `peekInfo` deferred: resolved with the parsed greeting, or
rejected with the protocol error of lines 102-107. -/
inductive PeekOutcome where
  | ok (info : List Nat)
  | protoErr
deriving DecidableEq

/-- The data event handler of `peekInfo` (lines 94-112): push the chunk on
the queue, concatenate the whole queue, try to extract one complete protocol
line; on success parse it as the greeting and settle the deferred.  Note the
queue keeps every received chunk - nothing is removed from it when the line
is found. -/
def peekData (ys : List Chunk) (frame : Chunk) :
    List Chunk × Option PeekOutcome :=
  let ys2 := ys ++ [frame]
  match extractLine (concatChunks ys2) with
  | none => (ys2, none)
  | some pm =>
    match parseINFO pm with
    | some info => (ys2, some (PeekOutcome.ok info))
    | none => (ys2, some PeekOutcome.protoErr)

/-- Feed inbound chunks to the `peekInfo` data handler until its deferred
settles; once settled the handler is detached (line 109), so the remaining
chunks are reported unconsumed (they will reach the frame pump handler
installed by `setupHandlers`).  Returns the queue, the outcome and those
unconsumed chunks. -/
def peekRun (ys : List Chunk) :
    List Chunk → List Chunk × Option PeekOutcome × List Chunk
  | [] => (ys, none, [])
  | c :: cs =>
    match (peekData ys c).2 with
    | none => peekRun (ys ++ [c]) cs
    | some r => (ys ++ [c], some r, cs)

/-- The pending frame queue and handshake outcome after a full connect over
the given inbound chunks: `peekInfo` consumes chunks until the greeting line
completes, and every later chunk is pushed by the `setupHandlers` data
handler - so the final queue is the peek-time queue followed by the rest. -/
def handshakeYields (cs : List Chunk) : List Chunk × Option PeekOutcome :=
  ((peekRun [] cs).1 ++ (peekRun [] cs).2.2, (peekRun [] cs).2.1)

/-- The state of the transport after a successful `connect` (lines 44-54):
socket installed (raw, or TLS when the greeting required it), the greeting
chunks queued by `peekInfo`, `connected` set and the signal resolved. -/
def connectOkState (st : TransportState) (k : SockKind) (cs : List Chunk) :
    TransportState :=
  { st with
    socket := some k, yields := st.yields ++ cs,
    connected := true, signalResolved := true }

/-- One atomic state transition of the transport, as performed by the source:
a successful connect (lines 44-54: socket installed - raw or TLS -, greeting
chunks queued by `peekInfo`, `connected` set, signal resolved), a failed
connect (socket slot and queue possibly touched, flags untouched), a data
event, one of the three shutdown triggers, one consumer shift, the re-arming
of the readiness signal (line 180), or a `send` call (which never mutates
the state). -/
inductive Step : TransportState → TransportState → Prop where
  | connectOk (st : TransportState) (k : SockKind) (cs : List Chunk) :
      Step st (connectOkState st k cs)
  | connectFail (st : TransportState) (s : Option SockKind) (cs : List Chunk) :
      Step st { st with socket := s, yields := st.yields ++ cs }
  | dataArrival (st : TransportState) (f : Chunk) : Step st (dataEvent st f)
  | trigger (st : TransportState) (t : CloseTrigger) (w : Option JsErr) :
      Step st (applyTrigger st t w).1
  | consumerShift (st : TransportState) : Step st (iterateShift st).1
  | signalRearm (st : TransportState) :
      Step st { st with signalResolved := false }
  | sendCall (st : TransportState) (f : Chunk) (w : Option JsErr) :
      Step st (send st f w).1

/-- States reachable from the freshly constructed transport. -/
inductive Reachable : TransportState → Prop where
  | init : Reachable initState
  | step {a b : TransportState} : Reachable a → Step a b → Reachable b

/-- The two lifecycle invariants: `done` implies `connected`, and a resolved
closure deferred implies `done`. -/
def Inv (st : TransportState) : Prop :=
  (st.done = true → st.connected = true) ∧
  (st.notifyState.isSome = true → st.done = true)

/-- A connected, not yet closed transport state, as produced by a successful
plain connect on a fresh transport. -/
def stConnected : TransportState :=
  { socket := some SockKind.raw, yields := [], signalResolved := true,
    notifyState := none, connected := true, done := false }

/-- A transport state after shutdown completed with no error. -/
def stDone : TransportState :=
  { socket := some SockKind.raw, yields := [], signalResolved := true,
    notifyState := some none, connected := true, done := true }

/-- The single inbound chunk of the concrete counterexample run: the greeting
line INFO with payload braces, the CRLF, then two extra bytes A and B. -/
def c2Bytes : List Nat := [73, 78, 70, 79, 32, 123, 125, 13, 10, 65, 66]

/-- The transport state right after `connect` succeeded on the single chunk
`c2Bytes`: the raw socket installed, the queue holding whatever the
handshake left in it, the signal resolved by line 54. -/
def stAfterHandshake : TransportState :=
  { socket := some SockKind.raw,
    yields := (handshakeYields [c2Bytes]).1,
    signalResolved := true, notifyState := none, connected := true,
    done := false }

theorem send_fst (st : TransportState) (f : Chunk) (w : Option JsErr) :
    (send st f w).1 = st := by
  unfold send
  by_cases h : st.isClosed
  · simp [h]
  · cases hs : st.socket <;> cases w <;> simp [h, hs]

theorem send_effs (st : TransportState) (f : Chunk) (w : Option JsErr) :
    (send st f w).2.2 = [] ∨ (send st f w).2.2 = [Effect.socketWrite f] := by
  unfold send
  by_cases h : st.isClosed
  · simp [h]
  · cases hs : st.socket <;> cases w <;> simp [h, hs]

theorem closedImpl_noop (st : TransportState) (e w : Option JsErr)
    (h : st.connected = false ∨ st.done = true) : closedImpl st e w = (st, []) := by
  unfold closedImpl
  rcases h with h | h
  · simp [h]
  · by_cases hc : st.connected = false
    · simp [hc]
    · simp [hc, h]

theorem closedImpl_state (st : TransportState) (e w : Option JsErr)
    (hc : st.connected = true) (hd : st.done = false) :
    (closedImpl st e w).1 =
      { st with done := true, notifyState := resolveDeferred st.notifyState e } := by
  unfold closedImpl
  simp [hc, hd]

theorem closedImpl_filter (st : TransportState) (e w : Option JsErr)
    (hc : st.connected = true) (hd : st.done = false) :
    List.filter isResolveNote (closedImpl st e w).2 = [Effect.resolveNote e] := by
  unfold closedImpl
  simp only [hc, hd, Bool.true_eq_false, if_false]
  rcases send_effs st okFrame w with hs | hs <;>
    cases e <;> cases hsk : st.socket <;>
      simp [hs, hsk, List.filter_append, isResolveNote]

/-- C3: for every error object captured during connect, a low-level code equal
to ECONNREFUSED makes connect reject with a typed CONNECTION_REFUSED error
wrapping it, and every other captured error is rejected unchanged. -/
theorem c3_error_translation (e : JsErr) :
    (e.code = some "ECONNREFUSED" →
      connectCatch (some e) =
        CatchResult.reject (some (JsErr.natsError "CONNECTION_REFUSED" e))) ∧
    (e.code ≠ some "ECONNREFUSED" →
      connectCatch (some e) = CatchResult.reject (some e)) := by
  constructor <;> intro h <;> simp [connectCatch, h]

theorem c3_witness :
    connectCatch (some (JsErr.raw (some "ECONNREFUSED") "dial failed")) =
      CatchResult.reject (some (JsErr.natsError "CONNECTION_REFUSED"
        (JsErr.raw (some "ECONNREFUSED") "dial failed"))) ∧
    connectCatch (some (JsErr.raw none "other failure")) =
      CatchResult.reject (some (JsErr.raw none "other failure")) :=
  ⟨(c3_error_translation (JsErr.raw (some "ECONNREFUSED") "dial failed")).1 rfl,
   (c3_error_translation (JsErr.raw none "other failure")).2 (by decide)⟩

/-- C4: a socket close event with no prior error event makes the dial
deferred reject with undefined, as the claim states; but the catch handler
of connect then destructures the `code` property from that undefined value,
which raises a TypeError - connect surfaces a secondary TypeError instead of
handling the undefined cause, contradicting the claim. -/
theorem c4_undefined_close_crash :
    dialRun [DialEv.closeEv] none = DialOutcome.rejected none ∧
    connectCatch none = CatchResult.typeErrorThrown :=
  ⟨rfl, rfl⟩

/-- C5: a `send` on a transport whose `done` flag is set resolves
successfully, performs no socket write (empty effect trace), and leaves the
state unchanged. -/
theorem c5_send_after_close (st : TransportState) (f : Chunk)
    (w : Option JsErr) (h : st.isClosed = true) :
    send st f w = (st, SendResult.resolved, []) := by
  unfold send
  simp [h]

theorem c5_witness :
    send stDone [80, 73, 78, 71, 13, 10] none = (stDone, SendResult.resolved, []) :=
  c5_send_after_close stDone [80, 73, 78, 71, 13, 10] none rfl

/-- C8: when the greeting mandates encryption, `isEncrypted` is false in
every connect phase strictly before the TLS upgrade completes and installs
the TLS session in the socket slot, and true in every phase from that point
on. -/
theorem c8_encrypted_only_after_tls (st : TransportState) (greet : List Chunk)
    (h : st.isEncrypted = false) :
    List.all ((connectPhases st greet).take tlsUpgradeIdx)
        (fun s => !s.isEncrypted) = true ∧
    List.all ((connectPhases st greet).drop tlsUpgradeIdx)
        (fun s => s.isEncrypted) = true := by
  simp only [TransportState.isEncrypted] at h
  constructor <;>
    simp [connectPhases, tlsUpgradeIdx, TransportState.isEncrypted, h]

theorem c8_witness :
    List.all ((connectPhases initState []).take tlsUpgradeIdx)
        (fun s => !s.isEncrypted) = true ∧
    List.all ((connectPhases initState []).drop tlsUpgradeIdx)
        (fun s => s.isEncrypted) = true :=
  c8_encrypted_only_after_tls initState [] rfl

theorem applyTrigger_done (st : TransportState) (t : CloseTrigger)
    (w : Option JsErr) (h : st.done = true) :
    (applyTrigger st t w).2 = [] ∧ (applyTrigger st t w).1.done = true ∧
    (applyTrigger st t w).1.notifyState = st.notifyState := by
  cases t with
  | closeCall e =>
    simp only [applyTrigger]
    rw [closedImpl_noop st e w (Or.inr h)]
    exact ⟨rfl, h, rfl⟩
  | socketCloseEv e =>
    have h2 : ({ st with socket := none } : TransportState).done = true := h
    simp only [applyTrigger]
    rw [closedImpl_noop _ e w (Or.inr h2)]
    exact ⟨rfl, h, rfl⟩
  | disconnectCall =>
    simp only [applyTrigger]
    rw [closedImpl_noop st none w (Or.inr h)]
    exact ⟨rfl, h, rfl⟩

theorem runTriggers_done (ts : List (CloseTrigger × Option JsErr)) :
    ∀ st : TransportState, st.done = true →
    (runTriggers st ts).2 = [] ∧
    (runTriggers st ts).1.notifyState = st.notifyState := by
  induction ts with
  | nil => intro st _; simp [runTriggers]
  | cons p ts ih =>
    intro st h
    obtain ⟨t, w⟩ := p
    obtain ⟨he, hd, hn⟩ := applyTrigger_done st t w h
    obtain ⟨ihe, ihn⟩ := ih _ hd
    simp [runTriggers, he, ihe, ihn, hn]

theorem applyTrigger_effective (st : TransportState) (t : CloseTrigger)
    (w : Option JsErr) (hc : st.connected = true) (hd : st.done = false)
    (hn : st.notifyState = none) :
    (applyTrigger st t w).1.notifyState = some (triggerCause t) ∧
    (applyTrigger st t w).1.done = true ∧
    List.filter isResolveNote (applyTrigger st t w).2 =
      [Effect.resolveNote (triggerCause t)] := by
  cases t with
  | closeCall e =>
    simp only [applyTrigger, triggerCause]
    rw [closedImpl_state st e w hc hd, closedImpl_filter st e w hc hd]
    refine ⟨?_, rfl, rfl⟩
    show resolveDeferred st.notifyState e = some e
    rw [hn]
    rfl
  | socketCloseEv e =>
    have hc2 : ({ st with socket := none } : TransportState).connected = true := hc
    have hd2 : ({ st with socket := none } : TransportState).done = false := hd
    simp only [applyTrigger, triggerCause]
    rw [closedImpl_state _ e w hc2 hd2, closedImpl_filter _ e w hc2 hd2]
    refine ⟨?_, rfl, rfl⟩
    show resolveDeferred st.notifyState e = some e
    rw [hn]
    rfl
  | disconnectCall =>
    simp only [applyTrigger, triggerCause]
    rw [closedImpl_state st none w hc hd, closedImpl_filter st none w hc hd]
    refine ⟨?_, rfl, rfl⟩
    show resolveDeferred st.notifyState none = some none
    rw [hn]
    rfl

/-- C1: on a transport that completed its handshake and has not yet shut
down, any nonempty sequence of shutdown invocations - explicit close calls,
socket close events, disconnect calls, in any mix - resolves the closure
deferred exactly once (exactly one resolve effect appears in the whole
trace), and the resolved value is the cause presented by the first
invocation. -/
theorem c1_close_idempotent (st : TransportState) (t : CloseTrigger)
    (w : Option JsErr) (ts : List (CloseTrigger × Option JsErr))
    (hc : st.connected = true) (hd : st.done = false)
    (hn : st.notifyState = none) :
    (runTriggers st ((t, w) :: ts)).1.notifyState = some (triggerCause t) ∧
    List.filter isResolveNote (runTriggers st ((t, w) :: ts)).2 =
      [Effect.resolveNote (triggerCause t)] := by
  obtain ⟨h1, h2, h3⟩ := applyTrigger_effective st t w hc hd hn
  obtain ⟨h4, h5⟩ := runTriggers_done ts (applyTrigger st t w).1 h2
  simp only [runTriggers]
  exact ⟨by rw [h5, h1], by rw [List.filter_append, h3, h4]; simp⟩

theorem c1_witness :
    (runTriggers stConnected
      [(CloseTrigger.closeCall (some (JsErr.raw none "boom")), none),
       (CloseTrigger.disconnectCall, none),
       (CloseTrigger.socketCloseEv none, none)]).1.notifyState =
      some (some (JsErr.raw none "boom")) ∧
    List.filter isResolveNote (runTriggers stConnected
      [(CloseTrigger.closeCall (some (JsErr.raw none "boom")), none),
       (CloseTrigger.disconnectCall, none),
       (CloseTrigger.socketCloseEv none, none)]).2 =
      [Effect.resolveNote (some (JsErr.raw none "boom"))] :=
  c1_close_idempotent stConnected
    (CloseTrigger.closeCall (some (JsErr.raw none "boom"))) none
    [(CloseTrigger.disconnectCall, none), (CloseTrigger.socketCloseEv none, none)]
    rfl rfl rfl

/-- C9: on the first effective shutdown call with no error and a live socket
the coordinator emits exactly one socket write of the fixed five byte
acknowledgment frame (the bytes of the encoded OK line), then the destroy,
then sets done and resolves the closure deferred - in that order - and this
holds for every outcome of the final write callback, so a failed final write
never prevents the shutdown from completing. -/
theorem c9_final_write (st : TransportState) (w : Option JsErr) (k : SockKind)
    (hc : st.connected = true) (hd : st.done = false)
    (hs : st.socket = some k) :
    closedImpl st none w =
      ({ st with
         done := true, notifyState := resolveDeferred st.notifyState none },
       [Effect.socketWrite okFrame, Effect.socketDestroy, Effect.setDone,
        Effect.resolveNote none]) ∧
    okFrame = [43, 79, 75, 13, 10] ∧ okFrame.length = 5 := by
  refine ⟨?_, rfl, rfl⟩
  have hic : st.isClosed = false := hd
  unfold closedImpl send
  cases w <;> simp [hc, hd, hs, hic]

theorem c9_witness :
    closedImpl stConnected none (some (JsErr.raw none "broken pipe")) =
      ({ stConnected with
         done := true,
         notifyState := resolveDeferred stConnected.notifyState none },
       [Effect.socketWrite okFrame, Effect.socketDestroy, Effect.setDone,
        Effect.resolveNote none]) ∧
    okFrame = [43, 79, 75, 13, 10] ∧ okFrame.length = 5 :=
  c9_final_write stConnected (some (JsErr.raw none "broken pipe"))
    SockKind.raw rfl rfl rfl

theorem iterateShift_fst (st : TransportState) :
    (iterateShift st).1 = st ∨
    (iterateShift st).1 = { st with yields := st.yields.tail } := by
  unfold iterateShift
  cases st.yields <;> simp

theorem inv_closedImpl (st : TransportState) (e w : Option JsErr)
    (h : Inv st) : Inv (closedImpl st e w).1 := by
  by_cases hc : st.connected = false
  · rw [closedImpl_noop st e w (Or.inl hc)]; exact h
  · by_cases hd : st.done = true
    · rw [closedImpl_noop st e w (Or.inr hd)]; exact h
    · have hc2 : st.connected = true := by
        revert hc; cases st.connected <;> simp
      have hd2 : st.done = false := by
        revert hd; cases st.done <;> simp
      rw [closedImpl_state st e w hc2 hd2]
      exact ⟨fun _ => hc2, fun _ => rfl⟩

theorem inv_step {a b : TransportState} (h : Inv a) (s : Step a b) : Inv b := by
  cases s with
  | connectOk k cs => exact ⟨fun _ => rfl, fun hn => h.2 hn⟩
  | connectFail sk cs => exact ⟨h.1, h.2⟩
  | dataArrival f => exact ⟨h.1, h.2⟩
  | trigger t w =>
    cases t with
    | closeCall e => exact inv_closedImpl a e w h
    | socketCloseEv e => exact inv_closedImpl _ e w ⟨h.1, h.2⟩
    | disconnectCall => exact inv_closedImpl a none w h
  | consumerShift =>
    rcases iterateShift_fst a with h2 | h2 <;> rw [h2]
    · exact h
    · exact ⟨h.1, h.2⟩
  | signalRearm => exact ⟨h.1, h.2⟩
  | sendCall f w => rw [send_fst]; exact h

theorem reachable_inv {st : TransportState} (h : Reachable st) : Inv st := by
  induction h with
  | init =>
    exact ⟨fun hd => absurd hd (by decide), fun hn => absurd hn (by decide)⟩
  | step _ hs ih => exact inv_step ih hs

/-- C7: in every reachable state the done flag implies the connected flag,
and invoking the shutdown coordinator on a never-connected transport returns
the state unchanged with no effects. -/
theorem c7_done_implies_connected (st : TransportState) (h : Reachable st) :
    (st.done = true → st.connected = true) ∧
    (st.connected = false →
      ∀ (e w : Option JsErr), closedImpl st e w = (st, [])) :=
  ⟨(reachable_inv h).1, fun hc e w => closedImpl_noop st e w (Or.inl hc)⟩

theorem c7_witness :
    (initState.done = true → initState.connected = true) ∧
    (initState.connected = false →
      ∀ (e w : Option JsErr), closedImpl initState e w = (initState, [])) :=
  c7_done_implies_connected initState Reachable.init

/-- C10: in every reachable state a resolved closure deferred implies the
done flag, so an observer of the closed promise sees isClosed true; and in
every shutdown path the effect trace either is empty or ends with the done
assignment immediately followed by the resolve call, with no earlier done
assignment - done is set strictly before the closure deferred resolves. -/
theorem c10_done_before_resolve :
    (∀ st : TransportState, Reachable st →
      st.notifyState.isSome = true → st.isClosed = true) ∧
    (∀ (st : TransportState) (e w : Option JsErr),
      (closedImpl st e w).2 = [] ∨
      ∃ pre : List Effect,
        (closedImpl st e w).2 = pre ++ [Effect.setDone, Effect.resolveNote e] ∧
        Effect.setDone ∉ pre) := by
  constructor
  · intro st h hn
    exact (reachable_inv h).2 hn
  · intro st e w
    by_cases hc : st.connected = false
    · left; rw [closedImpl_noop st e w (Or.inl hc)]
    · by_cases hd : st.done = true
      · left; rw [closedImpl_noop st e w (Or.inr hd)]
      · right
        have hc2 : st.connected = true := by
          revert hc; cases st.connected <;> simp
        have hd2 : st.done = false := by
          revert hd; cases st.done <;> simp
        unfold closedImpl
        rcases send_effs st okFrame w with hs | hs <;>
          cases e <;> cases hsk : st.socket <;>
            simp [hc2, hd2, hs, hsk] <;>
          first
            | exact ⟨[Effect.socketDestroy], rfl, by simp⟩
            | exact ⟨[Effect.socketWrite okFrame, Effect.socketDestroy], rfl,
                by simp⟩

theorem c10_witness :
    ((applyTrigger stConnected (CloseTrigger.closeCall none) none).1).isClosed
      = true := by
  have hr : Reachable stConnected :=
    Reachable.step Reachable.init (Step.connectOk initState SockKind.raw [])
  have hr2 :
      Reachable ((applyTrigger stConnected (CloseTrigger.closeCall none) none).1) :=
    Reachable.step hr (Step.trigger stConnected (CloseTrigger.closeCall none) none)
  exact c10_done_before_resolve.1 _ hr2 (by decide)

theorem pump_inv (evs : List PumpEv) : ∀ st : TransportState,
    (pumpRun st evs).2 ++ (pumpRun st evs).1.yields =
      st.yields ++ pushedFrames evs := by
  induction evs with
  | nil => intro st; simp [pumpRun, pushedFrames]
  | cons ev evs ih =>
    intro st
    cases ev with
    | dataEv f =>
      simp only [pumpRun, pushedFrames]
      rw [ih (dataEvent st f)]
      simp [dataEvent]
    | take =>
      simp only [pumpRun, pushedFrames]
      cases hy : st.yields with
      | nil =>
        simp only [iterateShift, hy]
        rw [ih st, hy]
      | cons f rest =>
        simp only [iterateShift, hy]
        rw [List.cons_append, ih { st with yields := rest }]
        simp [hy]

/-- C6: interleaving data events with consumer drain steps in any order, the
frames the consumer observes followed by the frames still queued are exactly
the initial queue followed by the event payloads in arrival order - nothing
lost, duplicated or reordered; in particular a consumer that starts from an
empty queue and drains it fully observes exactly the event payloads in
order. -/
theorem c6_frame_ordering (st : TransportState) (evs : List PumpEv) :
    (pumpRun st evs).2 ++ (pumpRun st evs).1.yields =
      st.yields ++ pushedFrames evs ∧
    (st.yields = [] → (pumpRun st evs).1.yields = [] →
      (pumpRun st evs).2 = pushedFrames evs) := by
  refine ⟨pump_inv evs st, fun h0 hfin => ?_⟩
  have h := pump_inv evs st
  rw [h0, hfin] at h
  simpa using h

theorem c6_witness :
    (pumpRun stConnected [PumpEv.dataEv [77, 83, 71], PumpEv.dataEv [80, 73],
      PumpEv.take, PumpEv.take]).2 =
      pushedFrames [PumpEv.dataEv [77, 83, 71], PumpEv.dataEv [80, 73],
        PumpEv.take, PumpEv.take] :=
  (c6_frame_ordering stConnected
    [PumpEv.dataEv [77, 83, 71], PumpEv.dataEv [80, 73],
      PumpEv.take, PumpEv.take]).2 rfl (by decide)

theorem concat_snoc (ys : List Chunk) (c : Chunk) :
    concatChunks (ys ++ [c]) = concatChunks ys ++ c := by
  induction ys with
  | nil => simp [concatChunks]
  | cons a q ih => simp [concatChunks, ih]

theorem take_len_append {α : Type} (q r : List α) :
    (q ++ r).take q.length = q := by
  induction q with
  | nil => rfl
  | cons a q ih => simp [List.take, ih]

theorem take_append_le {α : Type} (g t : List α) :
    ∀ n : Nat, n ≤ g.length → (g ++ t).take n = g.take n := by
  induction g with
  | nil =>
    intro n h
    have : n = 0 := Nat.le_zero.mp h
    simp [this]
  | cons a q ih =>
    intro n h
    cases n with
    | zero => rfl
    | succ m =>
      simp only [List.cons_append, List.take, List.append_eq]
      rw [ih m (Nat.le_of_succ_le_succ h)]

theorem take_append_add {α : Type} (g t : List α) (k : Nat) :
    (g ++ t).take (g.length + k) = g ++ t.take k := by
  induction g with
  | nil => simp
  | cons a q ih =>
    simp only [List.cons_append, List.length_cons]
    rw [Nat.succ_add, List.take, ih]

theorem extractLine_none : ∀ p : List Nat, 13 ∉ p → extractLine p = none := by
  intro p
  induction p with
  | nil => intro _; rfl
  | cons b q ih =>
    intro h
    have hb : b ≠ 13 := fun hb => h (by simp [hb])
    have h2 : (13 : Nat) ∉ q := fun hm => h (List.mem_cons_of_mem b hm)
    cases q with
    | nil => rfl
    | cons c r =>
      simp only [extractLine]
      rw [if_neg (fun hcon => hb hcon.1), ih h2]
      rfl

theorem extractLine_cr : ∀ g : List Nat, 13 ∉ g →
    extractLine (g ++ [13]) = none := by
  intro g
  induction g with
  | nil => intro _; rfl
  | cons b q ih =>
    intro h
    have hb : b ≠ 13 := fun hb => h (by simp [hb])
    have h2 : (13 : Nat) ∉ q := fun hm => h (List.mem_cons_of_mem b hm)
    cases q with
    | nil =>
      simp only [List.nil_append, List.cons_append, extractLine]
      rw [if_neg (fun hcon => hb hcon.1)]
      rfl
    | cons c r =>
      simp only [List.cons_append, extractLine]
      rw [if_neg (fun hcon => hb hcon.1)]
      have h3 := ih h2
      simp only [List.cons_append] at h3
      simp only [List.append_eq]
      rw [h3]
      rfl

theorem extractLine_complete : ∀ (g e : List Nat), 13 ∉ g →
    extractLine (g ++ 13 :: 10 :: e) = some g := by
  intro g
  induction g with
  | nil => intro e _; simp [extractLine]
  | cons b q ih =>
    intro e h
    have hb : b ≠ 13 := fun hb => h (by simp [hb])
    have h2 : (13 : Nat) ∉ q := fun hm => h (List.mem_cons_of_mem b hm)
    cases q with
    | nil =>
      simp only [List.nil_append, List.cons_append, extractLine]
      rw [if_neg (fun hcon => hb hcon.1)]
      simp [extractLine]
    | cons c r =>
      simp only [List.cons_append, extractLine]
      rw [if_neg (fun hcon => hb hcon.1)]
      have h3 := ih e h2
      simp only [List.cons_append] at h3
      simp only [List.append_eq]
      rw [h3]
      rfl

theorem peekRun_resolves :
    ∀ (cs ys : List Chunk) (g extra info : List Nat),
    concatChunks ys ++ concatChunks cs = g ++ 13 :: 10 :: extra →
    (concatChunks ys).length ≤ g.length + 1 →
    13 ∉ g →
    parseINFO g = some info →
    (peekRun ys cs).2.1 = some (PeekOutcome.ok info) ∧
    (peekRun ys cs).1 ++ (peekRun ys cs).2.2 = ys ++ cs := by
  intro cs
  induction cs with
  | nil =>
    intro ys g extra info h1 h2 h3 h4
    exfalso
    have hlen := congrArg List.length h1
    simp [concatChunks] at hlen
    omega
  | cons c cs ih =>
    intro ys g extra info h1 h2 h3 h4
    have hq : concatChunks (ys ++ [c]) = concatChunks ys ++ c :=
      concat_snoc ys c
    have hfull :
        concatChunks (ys ++ [c]) ++ concatChunks cs =
          g ++ 13 :: 10 :: extra := by
      simp only [concatChunks] at h1
      rw [hq, List.append_assoc]
      exact h1
    have hqpre :
        concatChunks (ys ++ [c]) =
          (g ++ 13 :: 10 :: extra).take (concatChunks (ys ++ [c])).length := by
      rw [← hfull]
      exact (take_len_append _ _).symm
    rcases Nat.lt_or_ge (concatChunks (ys ++ [c])).length (g.length + 1)
      with hlt | hge1
    · -- the accumulated bytes are still a proper part of the greeting line
      have hle : (concatChunks (ys ++ [c])).length ≤ g.length :=
        Nat.lt_succ_iff.mp hlt
      have h13 : (13 : Nat) ∉ concatChunks (ys ++ [c]) := by
        rw [hqpre, take_append_le _ _ _ hle]
        exact fun hm => h3 (List.take_subset _ _ hm)
      have hpd : (peekData ys c).2 = none := by
        simp only [peekData]
        rw [extractLine_none _ h13]
      have hstep : peekRun ys (c :: cs) = peekRun (ys ++ [c]) cs := by
        simp only [peekRun]
        rw [hpd]
      have hrec := ih (ys ++ [c]) g extra info hfull
        (Nat.le_succ_of_le hle) h3 h4
      rw [hstep]
      refine ⟨hrec.1, ?_⟩
      rw [hrec.2]
      simp
    · rcases Nat.lt_or_ge (concatChunks (ys ++ [c])).length (g.length + 2)
        with hlt2 | hge2
      · -- the accumulated bytes are the greeting line plus the lone CR
        have hn : (concatChunks (ys ++ [c])).length = g.length + 1 := by
          omega
        have hqeq : concatChunks (ys ++ [c]) = g ++ [13] := by
          conv_lhs => rw [hqpre, hn]
          rw [take_append_add g _ 1]
          rfl
        have hpd : (peekData ys c).2 = none := by
          simp only [peekData]
          rw [hqeq, extractLine_cr g h3]
        have hstep : peekRun ys (c :: cs) = peekRun (ys ++ [c]) cs := by
          simp only [peekRun]
          rw [hpd]
        have hrec := ih (ys ++ [c]) g extra info hfull (Nat.le_of_eq hn) h3 h4
        rw [hstep]
        refine ⟨hrec.1, ?_⟩
        rw [hrec.2]
        simp
      · -- this chunk completes the line: the deferred settles here
        have hk : (concatChunks (ys ++ [c])).length =
            g.length + (((concatChunks (ys ++ [c])).length - g.length - 2) + 2) := by
          omega
        have hqeq : concatChunks (ys ++ [c]) =
            g ++ 13 :: 10 ::
              extra.take ((concatChunks (ys ++ [c])).length - g.length - 2) := by
          conv_lhs => rw [hqpre, hk]
          rw [take_append_add g _ _]
          rfl
        have hEx : extractLine (concatChunks (ys ++ [c])) = some g := by
          rw [hqeq]
          exact extractLine_complete g _ h3
        have hpd : (peekData ys c).2 = some (PeekOutcome.ok info) := by
          simp only [peekData]
          rw [hEx]
          simp [h4]
        have hstep : peekRun ys (c :: cs) =
            (ys ++ [c], some (PeekOutcome.ok info), cs) := by
          simp only [peekRun]
          rw [hpd]
        rw [hstep]
        exact ⟨rfl, by simp⟩

/-- C2 (amended): when the inbound chunks together form one complete
greeting line followed by arbitrary extra bytes, the handshake resolves with
the parsed greeting, and the whole byte stream - the greeting line included,
not only the extra bytes - is preserved in the pending frame queue, none of
it lost and none duplicated; the greeting bytes are not removed from the
queue. -/
theorem c2_amended_preserved (cs : List Chunk) (g extra info : List Nat)
    (h1 : concatChunks cs = g ++ 13 :: 10 :: extra)
    (h3 : 13 ∉ g) (h4 : parseINFO g = some info) :
    (handshakeYields cs).2 = some (PeekOutcome.ok info) ∧
    (handshakeYields cs).1 = cs := by
  have h := peekRun_resolves cs [] g extra info
    (by simpa [concatChunks] using h1) (by simp [concatChunks]) h3 h4
  unfold handshakeYields
  exact ⟨h.1, by simpa using h.2⟩

theorem c2_witness :
    (handshakeYields [[73, 78, 70, 79, 32, 123, 125, 13, 10, 65, 66]]).2 =
      some (PeekOutcome.ok [123, 125]) ∧
    (handshakeYields [[73, 78, 70, 79, 32, 123, 125, 13, 10, 65, 66]]).1 =
      [[73, 78, 70, 79, 32, 123, 125, 13, 10, 65, 66]] :=
  c2_amended_preserved [[73, 78, 70, 79, 32, 123, 125, 13, 10, 65, 66]]
    [73, 78, 70, 79, 32, 123, 125] [65, 66] [123, 125]
    (by decide) (by decide) (by decide)

/-- C2 (counterexample to the claim as stated): on the single inbound chunk
holding the greeting line plus the extra bytes A and B, the handshake
resolves, and the frame consumer then observes the full chunk - the
pre-handshake greeting bytes included - rather than only the extra bytes:
the greeting bytes are yielded to the frame consumer, not consumed
internally. -/
theorem c2_counterexample :
    (pumpRun stAfterHandshake [PumpEv.take]).2 = [c2Bytes] ∧
    concatChunks (pumpRun stAfterHandshake [PumpEv.take]).2 =
      [73, 78, 70, 79, 32, 123, 125] ++ 13 :: 10 :: [65, 66] ∧
    concatChunks (pumpRun stAfterHandshake [PumpEv.take]).2 ≠ [65, 66] := by
  refine ⟨by decide, by decide, by decide⟩

end NodeTransport
